import Mathlib

/-!
Verification of the ScarySingleDocs download client and tunnel supervisor.

This file gives a shallow embedding of the parts of `modules/CivitaiAPI.py`
and `modules/TunnelHub.py` that the specification talks about, and proves or
refutes the specified properties against that embedding.

Modelling conventions:
- Python strings are modelled as `List Char` (`PyStr`); the Python string
  operations used by the source (`split`, `startswith`, substring `in`,
  `isdigit`, no-argument `split`) are re-implemented below with the
  documented CPython semantics (ASCII inputs).
- JSON documents are modelled by the inductive `Json`; Python truthiness of a
  decoded JSON value is `jsonTruthy`.  A Python `None` result and a JSON
  `null` result are both modelled as `Option.none` where a function can
  return either.
- `time.time()` is modelled by a `Nat` clock carried in the state; the MD5
  cache key of a URL is modelled by the URL itself (MD5 is treated as an
  injective key function).
- Python floats are modelled as exact rationals (`Rat`).  The numbers that
  occur here (progress percentages, retry delays) stay exact in both models,
  and the claimed order/equality facts are preserved by IEEE rounding of the
  division because rounding is monotone.
- `requests` transports are modelled as oracles: for `_get`, a function from
  the attempt number to `Option Json` (`none` models a raised
  `RequestException`); for the streaming download, a `StreamResp` record.
-/

/-- Python strings are modelled as lists of characters. -/
abbrev PyStr := List Char

/-- Model of the Python substring test `sep in l` (for the separators used in
the source, all nonempty). -/
def containsSub (sep : PyStr) (l : PyStr) : Bool :=
  sep.isPrefixOf l || match l with
    | [] => false
    | _ :: t => containsSub sep t

/-- Core of Python `str.split(sep)` for a nonempty separator `sep`.
`acc` is the current segment (reversed); `skip` is the number of separator
characters still to be consumed after a match. -/
def splitOnCore (sep : PyStr) : PyStr → PyStr → Nat → List PyStr
  | [], acc, _ => [acc.reverse]
  | _ :: rest, acc, skip + 1 => splitOnCore sep rest acc skip
  | c :: rest, acc, 0 =>
    if sep.isPrefixOf (c :: rest) && !sep.isEmpty then
      acc.reverse :: splitOnCore sep rest [] (sep.length - 1)
    else
      splitOnCore sep rest (c :: acc) 0

/-- Python `l.split(sep)` for a nonempty separator. -/
def pySplit (l sep : PyStr) : List PyStr := splitOnCore sep l [] 0

/-- Python `l[i]` on a list of strings.  The source only indexes split
results whose length it has established via a containment check, so the
default is never reached on the executed paths. -/
def pyGetItem (xs : List PyStr) (i : Nat) : PyStr := xs.getD i []

/-- Python `url.startswith(p)`. -/
def pyStartsWith (l p : PyStr) : Bool := p.isPrefixOf l

/-- Python `s.isdigit()` for ASCII strings. -/
def pyIsDigit (s : PyStr) : Bool := !s.isEmpty && s.all (·.isDigit)

/-- Python no-argument `s.split()`: split on whitespace runs, dropping empty
segments. -/
def pySplitWs (s : PyStr) : List PyStr :=
  (List.splitOnP (fun c => c.isWhitespace) s).filter (fun w => !w.isEmpty)

/-- Decoded JSON documents (the values `response.json()` can produce). -/
inductive Json where
  | null
  | bool (b : Bool)
  | num (n : Int)
  | str (s : PyStr)
  | arr (elems : List Json)
  | obj (fields : List (PyStr × Json))

/-- Python truthiness of a decoded JSON value: `None`, `False`, `0`, the
empty string, the empty list and the empty dict are falsy. -/
def jsonTruthy : Json → Bool
  | .null => false
  | .bool b => b
  | .num n => n != 0
  | .str s => !s.isEmpty
  | .arr es => !es.isEmpty
  | .obj fs => !fs.isEmpty

/-- First value bound to key `k` in a JSON object field list (CPython dicts
have unique keys, so this is the dict lookup). -/
def jsonLookup (fields : List (PyStr × Json)) (k : PyStr) : Option Json :=
  match fields with
  | [] => none
  | (k2, v) :: rest => if k2 = k then some v else jsonLookup rest k

/-- Python `d.get(k)` on a decoded JSON dict: a missing key yields `None` and
a stored JSON `null` is the Python value `None`; both are modelled as `none`.
Calling `.get` on a non-dict raises in Python and is modelled as `none`
(never reached on the executed paths of the claims). -/
def pyGet (j : Json) (k : PyStr) : Option Json :=
  match j with
  | .obj fs =>
    match jsonLookup fs k with
    | some .null => none
    | some v => some v
    | none => none
  | _ => none

/-- Python `d.get(k, default)` on a decoded JSON dict. -/
def pyGetD (j : Json) (k : PyStr) (d : Json) : Json :=
  match j with
  | .obj fs =>
    match jsonLookup fs k with
    | some v => v
    | none => d
  | _ => d

/-- One entry of `CivitAiAPI._cache`: the decoded body plus the capture
timestamp (`_store_in_cache`). -/
structure CacheEntry where
  data : Json
  timestamp : Nat

/-- The mutable state of `CivitAiAPI` that `_get` touches: the response cache
and the current clock value. -/
structure APIState where
  cache : PyStr → Option CacheEntry
  now : Nat

/-- `CivitAiAPI._cache_timeout` (seconds). -/
def cacheTimeoutConst : Nat := 300

/-- `CivitAiAPI.RETRY_ATTEMPTS`. -/
def retryAttemptsConst : Nat := 3

/-- `CivitAiAPI.RETRY_DELAY` (seconds). -/
def retryDelay : ℚ := 2

/-- `CivitAiAPI._get_cache_key`: the MD5 digest of the URL, modelled as the
URL itself (an injective key function). -/
def getCacheKey (url : PyStr) : PyStr := url

/-- `CivitAiAPI._is_cache_valid`. -/
def isCacheValid (s : APIState) (key : PyStr) : Bool :=
  match s.cache key with
  | none => false
  | some e => decide (s.now - e.timestamp < cacheTimeoutConst)

/-- `CivitAiAPI._get_from_cache`. -/
def getFromCache (s : APIState) (key : PyStr) : Option Json :=
  if isCacheValid s key then
    match s.cache key with
    | some e => some e.data
    | none => none
  else none

/-- `CivitAiAPI._store_in_cache`. -/
def storeInCache (s : APIState) (key : PyStr) (d : Json) : APIState :=
  { s with cache := fun k => if k = key then some { data := d, timestamp := s.now } else s.cache k }

/-- Wall-clock time passing between two API calls: same cache, later time. -/
def advanceClock (s : APIState) (dt : Nat) : APIState :=
  { cache := s.cache, now := s.now + dt }

/-- The observable outcome of one `_get` call: the returned value, the number
of network requests performed, the sequence of `time.sleep` durations, and
the state afterwards. -/
structure GetOutcome where
  result : Option Json
  networkCalls : Nat
  sleeps : List ℚ
  state : APIState

/-- The retry loop of `CivitAiAPI._get` (`for attempt in range(RETRY_ATTEMPTS)`).
`transport attempt` is the network oracle: `some j` models a 2xx response
decoding to `j`, `none` models a raised `RequestException`.  On the last
attempt no sleep is performed and the loop falls through to `return None`. -/
def getRetryLoop (transport : Nat → Option Json) (useCache : Bool) (key : PyStr)
    (s : APIState) : Nat → Nat → GetOutcome
  | _, 0 => { result := none, networkCalls := 0, sleeps := [], state := s }
  | attempt, remaining + 1 =>
    match transport attempt with
    | some j =>
      { result := some j, networkCalls := 1, sleeps := [],
        state := if useCache then storeInCache s key j else s }
    | none =>
      if remaining = 0 then
        { result := none, networkCalls := 1, sleeps := [], state := s }
      else
        let rest := getRetryLoop transport useCache key s (attempt + 1) remaining
        { result := rest.result, networkCalls := rest.networkCalls + 1,
          sleeps := retryDelay * ((attempt : ℚ) + 1) :: rest.sleeps, state := rest.state }

/-- `CivitAiAPI._get(url, use_cache)`.  The cached value is returned only when
it is truthy (`if cached_data:`); otherwise the retry loop runs, and on
success the result is stored in the cache when `use_cache` is set. -/
def apiGet (s : APIState) (transport : Nat → Option Json) (url : PyStr)
    (useCache : Bool) : GetOutcome :=
  let key := getCacheKey url
  let cached := if useCache then getFromCache s key else none
  match cached with
  | some d =>
    if jsonTruthy d then { result := some d, networkCalls := 0, sleeps := [], state := s }
    else getRetryLoop transport useCache key s 0 retryAttemptsConst
  | none => getRetryLoop transport useCache key s 0 retryAttemptsConst

/-- `CivitAiAPI._build_url`. -/
def buildUrl (endpoint : PyStr) : PyStr := "https://civitai.com/api/v1/".data ++ endpoint

/-- The expression `model_data.get('modelVersions', [{}])[0].get('id')` from
`_extract_version_id`.  An empty or non-list `modelVersions` value would
raise in Python and is modelled as no result (unreachable in the claims). -/
def firstVersionId (modelData : Json) : Option Json :=
  match pyGetD modelData "modelVersions".data (Json.arr [Json.obj []]) with
  | Json.arr (v :: _) => pyGet v "id".data
  | _ => none

/-- The trailing `'/api/download/models/' in url` branch of
`_extract_version_id`. -/
def extractDownloadBranch (url : PyStr) : Option Json :=
  if containsSub "/api/download/models/".data url then
    some (Json.str (pyGetItem (pySplit (pyGetItem (pySplit url "/api/download/models/".data) 1) "?".data) 0))
  else none

/-- `CivitAiAPI._extract_version_id(url)`.  `fetch` abstracts the call
`self._get(self._build_url(f"models/{model_id}"))` keyed by the full built
URL; its result is filtered through Python truthiness exactly as the source
does (`if model_data else None`). -/
def extractVersionId (fetch : PyStr → Option Json) (url : PyStr) : Option Json :=
  if !(pyStartsWith url "http://".data || pyStartsWith url "https://".data) then
    none
  else if containsSub "modelVersionId=".data url then
    some (Json.str (pyGetItem (pySplit (pyGetItem (pySplit url "modelVersionId=".data) 1) "&".data) 0))
  else if containsSub "civitai.com/models/".data url then
    let modelId :=
      pyGetItem (pySplit (pyGetItem (pySplit (pyGetItem (pySplit url "/models/".data) 1) "/".data) 0) "?".data) 0
    if pyIsDigit modelId then
      match fetch (buildUrl ("models/".data ++ modelId)) with
      | some md => if jsonTruthy md then firstVersionId md else none
      | none => none
    else extractDownloadBranch url
  else extractDownloadBranch url

/-- The network side of one streaming download in
`CivitAiAPI.download_model_with_progress`: the `content-length` header
(`0` when absent), the sizes of the chunks that `iter_content` yields before
the stream ends, and whether iteration ends by raising an exception. -/
structure StreamResp where
  contentLength : Nat
  chunks : List Nat
  midStreamError : Bool

/-- The inputs that determine one `download_model_with_progress` run: whether
the destination file already exists, and the streaming response
(`none` models `session.get`/`raise_for_status` raising). -/
structure DLInput where
  destExists : Bool
  response : Option StreamResp

/-- The clamp in `ModelData.update_progress`:
`min(100.0, max(0.0, progress))`. -/
def clampProgress (p : ℚ) : ℚ := min 100 (max 0 p)

/-- The per-chunk loop of `download_model_with_progress`: starting from
`d` downloaded bytes, returns the raw progress values
`(downloaded / total) * 100` computed after each nonempty chunk (none are
computed when the total is zero), and the final byte counter. -/
def chunkProgress (total : Nat) : List Nat → Nat → List ℚ × Nat
  | [], d => ([], d)
  | c :: cs, d =>
    if c = 0 then chunkProgress total cs d
    else
      let d2 := d + c
      let rest := chunkProgress total cs d2
      if total > 0 then (((d2 : ℚ) / (total : ℚ) * 100) :: rest.1, rest.2)
      else rest

/-- The observable outcome of one `download_model_with_progress` call. -/
structure DLResult where
  ret : Bool
  finalStatus : PyStr
  callbackProgress : List ℚ
  descriptorProgress : List ℚ
  finalProgress : ℚ
  fileExistsAfter : Bool
  networkAttempted : Bool

/-- `CivitAiAPI.download_model_with_progress(model_data, save_path, cb)`.
`callbackProgress` collects the progress arguments passed to the callback
(including the `100.0` completion call and the `0.0` failure call);
`descriptorProgress` collects the successive values assigned to
`model_data.download_progress` (clamped by `update_progress`, plus the final
`100.0` assignment on completion); `finalProgress` is the value left on the
descriptor (initially `0.0`).  On any exception the partial file is removed
(`save_path.unlink`), so `fileExistsAfter` is false there; when the initial
request itself raises, no file was created. -/
def downloadModelWithProgress (inp : DLInput) : DLResult :=
  if inp.destExists then
    { ret := true, finalStatus := "completed".data, callbackProgress := [100],
      descriptorProgress := [100], finalProgress := 100, fileExistsAfter := true,
      networkAttempted := false }
  else
    match inp.response with
    | none =>
      { ret := false, finalStatus := "failed".data, callbackProgress := [0],
        descriptorProgress := [], finalProgress := 0, fileExistsAfter := false,
        networkAttempted := true }
    | some resp =>
      let raw := (chunkProgress resp.contentLength resp.chunks 0).1
      if resp.midStreamError then
        { ret := false, finalStatus := "failed".data,
          callbackProgress := raw ++ [0],
          descriptorProgress := raw.map clampProgress,
          finalProgress := (raw.map clampProgress).getLastD 0,
          fileExistsAfter := false, networkAttempted := true }
      else
        { ret := true, finalStatus := "completed".data,
          callbackProgress := raw ++ [100],
          descriptorProgress := raw.map clampProgress ++ [100],
          finalProgress := 100, fileExistsAfter := true, networkAttempted := true }

/-- The observable outcome of one `download_multiple_models` call: the result
map (name to success, in future-completion order) and the arguments of the
overall progress callback invocations. -/
structure BatchOutcome where
  results : List (PyStr × Bool)
  callbackCalls : List (Nat × Nat × PyStr)

/-- The `as_completed` loop of `download_multiple_models`: each completing
future contributes its result entry, bumps `completed_models` and fires the
overall callback with `(completed, total, name)`.  `download_single` never
raises (the inner download catches all exceptions), so the `except` arm of
the loop is dead code and is not modelled. -/
def batchLoop (total : Nat) : List (PyStr × Bool) → Nat → BatchOutcome
  | [], _ => { results := [], callbackCalls := [] }
  | (name, ok) :: rest, completed =>
    let o := batchLoop total rest (completed + 1)
    { results := (name, ok) :: o.results,
      callbackCalls := (completed + 1, total, name) :: o.callbackCalls }

/-- `CivitAiAPI.download_multiple_models(model_list, cb)`.  `order` is the
submitted items in the order their futures complete (the thread pool
guarantees no particular order), each paired with the success flag returned
by `download_model_with_progress` for it.  With distinct model names the
result list is the Python result dict. -/
def downloadMultipleModels (order : List (PyStr × Bool)) : BatchOutcome :=
  batchLoop order.length order 0

/-- One `TunnelStatus` record (the fields the claims are about). -/
structure TunnelStatusRec where
  status : PyStr
  errorMessage : Option PyStr

/-- One fully merged entry of `EnhancedTunnel.tunnel_list`.  The compiled
regex is kept as its source text and the per-tunnel callback is omitted
(both are opaque to the registration logic). -/
structure TunnelConfig where
  command : PyStr
  pattern : PyStr
  name : PyStr
  note : Option PyStr
  priority : Nat
  healthCheckUrl : Option PyStr
  retryLimit : Nat
  timeoutCfg : Nat
  securityLevel : PyStr
  widgetIntegration : Bool
  cloudOptimized : Bool

/-- The `EnhancedTunnel` state that `add_tunnel` reads and writes:
the detected platform, the constructor defaults, the status map and the
execution list. -/
structure HubState where
  platform : PyStr
  maxRetries : Nat
  timeoutHub : Nat
  tunnelStatuses : PyStr → Option TunnelStatusRec
  tunnelList : List TunnelConfig

/-- Python `x or default` for an optional integer argument
(`retry_limit or self.max_retries`): `None` and `0` both fall back. -/
def pyOrNat (v : Option Nat) (d : Nat) : Nat :=
  match v with
  | some n => if n = 0 then d else n
  | none => d

/-- `EnhancedTunnel.optimize_tunnel_for_cloud`.  The `setdefault` calls are
no-ops because `add_tunnel` populates every key before calling this. -/
def optimizeTunnelForCloud (st : HubState) (cfg : TunnelConfig) : TunnelConfig :=
  if st.platform = "google_colab".data ∨ st.platform = "kaggle".data then
    { cfg with timeoutCfg := max cfg.timeoutCfg 30, retryLimit := max cfg.retryLimit 5 }
  else if st.platform = "vast_ai".data then
    { cfg with securityLevel := "high".data }
  else cfg

/-- `EnhancedTunnel.add_tunnel`.  `available` abstracts
`is_command_available` (a PATH lookup); the checked name is
`command.split()[0]` (an empty command would raise `IndexError` in Python
and is modelled as leaving the state unchanged).  A missing executable
records a `failed` status (Python message: `Command {name} not available`,
with the name in single quotes) and does not append to `tunnel_list`;
otherwise the merged configuration is appended and the status is
`initializing`. -/
def addTunnel (st : HubState) (available : PyStr → Bool)
    (command pattern name : PyStr) (note : Option PyStr)
    (priority : Nat) (healthCheckUrl : Option PyStr)
    (retryLimit : Option Nat) (timeoutArg : Option Nat)
    (securityLevel : PyStr) (widgetIntegration cloudOptimized : Bool) : HubState :=
  match pySplitWs command with
  | [] => st
  | cmdName :: _ =>
    if !available cmdName then
      { st with tunnelStatuses := fun k =>
          if k = name then
            some { status := "failed".data,
                   errorMessage := some ("Command ".data ++ cmdName ++ " not available".data) }
          else st.tunnelStatuses k }
    else
      let cfg : TunnelConfig :=
        { command := command, pattern := pattern, name := name, note := note,
          priority := priority, healthCheckUrl := healthCheckUrl,
          retryLimit := pyOrNat retryLimit st.maxRetries,
          timeoutCfg := pyOrNat timeoutArg st.timeoutHub,
          securityLevel := securityLevel,
          widgetIntegration := widgetIntegration, cloudOptimized := cloudOptimized }
      let cfg2 := if cloudOptimized then optimizeTunnelForCloud st cfg else cfg
      { st with
        tunnelStatuses := fun k =>
          if k = name then some { status := "initializing".data, errorMessage := none }
          else st.tunnelStatuses k,
        tunnelList := st.tunnelList ++ [cfg2] }

/-- The per-tunnel execution threads spawned by `Tunnel.__enter__`: exactly
one thread (running `_run`, which spawns the subprocess) per entry of
`tunnel_list`. -/
def spawnedTunnelThreads (st : HubState) : List PyStr :=
  st.tunnelList.map (·.name)

/-- `Tunnel.wait_for_condition(condition, interval, timeout)` idealised:
`cond k` is the condition value at the `k`-th poll, `elapsed` is the exact
total time slept so far (condition checks are treated as instantaneous), and
`fuel` bounds how many polls we observe.  Returns `(some true, _)` when the
condition became true, `(some false, _)` on timeout, and `(none, total)`
when the loop is still running after `fuel` polls having slept `total`
seconds.  The argument `timeoutOpt` is the already-normalised timeout (the
caller-facing wrapper applies `max(1, timeout)` to a non-`None` value). -/
def waitAux (cond : Nat → Bool) (interval : ℚ) (timeoutOpt : Option ℚ)
    (k : Nat) (elapsed : ℚ) : Nat → Option Bool × ℚ
  | 0 => (none, 0)
  | fuel + 1 =>
    if cond k then (some true, 0)
    else
      match timeoutOpt with
      | some t =>
        if elapsed ≥ t then (some false, 0)
        else
          let next := min interval ((t - elapsed) / ((k : ℚ) + 2))
          let r := waitAux cond interval timeoutOpt (k + 1) (elapsed + next) fuel
          (r.1, next + r.2)
      | none =>
        let r := waitAux cond interval timeoutOpt (k + 1) (elapsed + interval) fuel
        (r.1, interval + r.2)

/-- `Tunnel.wait_for_condition` including the `max(1, timeout)`
normalisation of a non-`None` timeout. -/
def waitForCondition (cond : Nat → Bool) (interval : ℚ) (timeoutOpt : Option ℚ)
    (fuel : Nat) : Option Bool × ℚ :=
  waitAux cond interval (timeoutOpt.map (fun t => max 1 t)) 0 0 fuel

/-- `Tunnel.wait_for_port_if_needed`: when `check_local_port` is set it calls
`wait_for_condition(..., interval=1, timeout=None)` on the condition
`is_port_in_use(port) or stop_event.is_set()`; otherwise it does not block. -/
def waitForPortIfNeeded (checkLocalPort : Bool) (portCond : Nat → Bool)
    (fuel : Nat) : Option Bool × ℚ :=
  if checkLocalPort then waitForCondition portCond 1 none fuel
  else (some true, 0)

/-- The printer-thread wait in `Tunnel._print`:
`wait_for_condition(all-urls-or-stop, interval=1, timeout=self.timeout)`. -/
def printerUrlWait (timeoutHub : Nat) (cond : Nat → Bool) (fuel : Nat) : Option Bool × ℚ :=
  waitForCondition cond 1 (some (timeoutHub : ℚ)) fuel

theorem getRetryLoop_networkCalls_le (t : Nat → Option Json) (u : Bool) (key : PyStr)
    (s : APIState) : ∀ n a, (getRetryLoop t u key s a n).networkCalls ≤ n := by
  intro n
  induction n with
  | zero => intro a; simp [getRetryLoop]
  | succ m ih =>
    intro a
    simp only [getRetryLoop]
    cases t a with
    | some j => simp
    | none =>
      cases m with
      | zero => simp [getRetryLoop]
      | succ m2 => simpa using Nat.succ_le_succ (ih (a + 1))

theorem getRetryLoop_networkCalls_pos (t : Nat → Option Json) (u : Bool) (key : PyStr)
    (s : APIState) (a n : Nat) : 1 ≤ (getRetryLoop t u key s a (n + 1)).networkCalls := by
  simp only [getRetryLoop]
  cases t a with
  | some j => simp
  | none =>
    cases n with
    | zero => simp
    | succ m => simp

theorem getRetryLoop_state_of_some (t : Nat → Option Json) (key : PyStr)
    (s : APIState) (j : Json) :
    ∀ n a, (getRetryLoop t true key s a n).result = some j →
      (getRetryLoop t true key s a n).state = storeInCache s key j := by
  intro n
  induction n with
  | zero => intro a h; simp [getRetryLoop] at h
  | succ m ih =>
    intro a h
    simp only [getRetryLoop] at h ⊢
    cases ht : t a with
    | some j2 =>
      rw [ht] at h
      simp at h
      simp [h]
    | none =>
      rw [ht] at h
      cases m with
      | zero => simp at h
      | succ m2 =>
        simp at h ⊢
        exact ih (a + 1) h

theorem apiGet_of_miss (s : APIState) (t : Nat → Option Json) (url : PyStr)
    (hmiss : ∀ d, getFromCache s (getCacheKey url) = some d → jsonTruthy d = false) :
    apiGet s t url true = getRetryLoop t true (getCacheKey url) s 0 retryAttemptsConst := by
  unfold apiGet
  cases hc : getFromCache s (getCacheKey url) with
  | none => simp [hc]
  | some d => simp [hc, hmiss d hc]

/-- C2: on a cache miss, `_get` performs at most 3 request attempts; when the
transport fails exactly `k < 3` times and then succeeds, the successful
payload is returned after `k + 1` requests and the sleeps between attempts
are `RETRY_DELAY * attempt_number`, a strictly increasing sequence; when all
3 attempts fail the call returns `None` (no exception escapes: the loop
catches `RequestException` and falls through), having slept twice
(2s then 4s). -/
theorem c2_retry_backoff (s : APIState) (url : PyStr)
    (hmiss : ∀ d, getFromCache s (getCacheKey url) = some d → jsonTruthy d = false) :
    (∀ transport, (apiGet s transport url true).networkCalls ≤ 3) ∧
    (∀ transport (j : Json) (k : Nat), k < 3 → (∀ i, i < k → transport i = none) →
      transport k = some j →
      (apiGet s transport url true).result = some j ∧
      (apiGet s transport url true).networkCalls = k + 1 ∧
      (apiGet s transport url true).sleeps
        = (List.range k).map (fun i => retryDelay * ((i : ℚ) + 1)) ∧
      List.Chain' (· < ·) (apiGet s transport url true).sleeps) ∧
    (∀ transport, (∀ i, i < 3 → transport i = none) →
      (apiGet s transport url true).result = none ∧
      (apiGet s transport url true).networkCalls = 3 ∧
      (apiGet s transport url true).sleeps = [retryDelay, retryDelay * 2]) := by
  refine ⟨?_, ?_, ?_⟩
  · intro transport
    rw [apiGet_of_miss s transport url hmiss]
    exact getRetryLoop_networkCalls_le transport true (getCacheKey url) s retryAttemptsConst 0
  · intro transport j k hk hfail hsucc
    rw [apiGet_of_miss s transport url hmiss]
    interval_cases k
    · simp [getRetryLoop, retryAttemptsConst, hsucc]
    · have h0 := hfail 0 (by omega)
      refine ⟨?_, ?_, ?_, ?_⟩ <;>
        simp [getRetryLoop, retryAttemptsConst, h0, hsucc, retryDelay] <;>
        norm_num [List.range_succ]
    · have h0 := hfail 0 (by omega)
      have h1 := hfail 1 (by omega)
      refine ⟨?_, ?_, ?_, ?_⟩ <;>
        simp [getRetryLoop, retryAttemptsConst, h0, h1, hsucc, retryDelay, List.chain'_pair] <;>
        norm_num [List.range_succ]
  · intro transport hfail
    have h0 := hfail 0 (by omega)
    have h1 := hfail 1 (by omega)
    have h2 := hfail 2 (by omega)
    rw [apiGet_of_miss s transport url hmiss]
    refine ⟨?_, ?_, ?_⟩ <;>
      simp [getRetryLoop, retryAttemptsConst, h0, h1, h2, retryDelay] <;> norm_num

theorem c2_retry_backoff_witness :
    (∀ d, getFromCache { cache := fun _ => none, now := 0 }
        (getCacheKey "https://civitai.com/api/v1/models/1".data) = some d →
        jsonTruthy d = false) ∧
    (apiGet { cache := fun _ => none, now := 0 }
        (fun i => if i = 1 then some (Json.num 5) else none)
        "https://civitai.com/api/v1/models/1".data true).result = some (Json.num 5) ∧
    (apiGet { cache := fun _ => none, now := 0 }
        (fun i => if i = 1 then some (Json.num 5) else none)
        "https://civitai.com/api/v1/models/1".data true).networkCalls = 2 := by
  have hmiss : ∀ d, getFromCache { cache := fun _ => none, now := 0 }
      (getCacheKey "https://civitai.com/api/v1/models/1".data) = some d →
      jsonTruthy d = false := by
    intro d hd
    simp [getFromCache, isCacheValid] at hd
  have h := (c2_retry_backoff { cache := fun _ => none, now := 0 }
      "https://civitai.com/api/v1/models/1".data hmiss).2.1
      (fun i => if i = 1 then some (Json.num 5) else none) (Json.num 5) 1
      (by omega) (fun i hi => by interval_cases i; rfl) rfl
  exact ⟨hmiss, h.1, h.2.1⟩


theorem apiGet_hit (s : APIState) (t : Nat → Option Json) (url : PyStr) (j : Json)
    (hc : getFromCache s (getCacheKey url) = some j) (hj : jsonTruthy j = true) :
    apiGet s t url true = { result := some j, networkCalls := 0, sleeps := [], state := s } := by
  simp [apiGet, hc, hj]

theorem getFromCache_store_advance (s : APIState) (key : PyStr) (j : Json) (dt : Nat)
    (hdt : dt < cacheTimeoutConst) :
    getFromCache (advanceClock (storeInCache s key j) dt) key = some j := by
  have hsub : s.now + dt - s.now = dt := by omega
  simp [getFromCache, isCacheValid, storeInCache, advanceClock, hsub, hdt]

/-- C1, counterexample: the first `_get` succeeds (with the falsy body `{}`)
yet a second `_get` on the same URL at the very same time (0 seconds later,
well within the 300-second TTL) performs 1 network request and returns the
new transport value instead of the first result, because `_get` only uses a
cached value when it is truthy. -/
theorem c1_counterexample :
    (apiGet { cache := fun _ => none, now := 0 } (fun _ => some (Json.obj []))
      "https://civitai.com/api/v1/models/7".data true).result = some (Json.obj []) ∧
    (apiGet (apiGet { cache := fun _ => none, now := 0 } (fun _ => some (Json.obj []))
        "https://civitai.com/api/v1/models/7".data true).state
      (fun _ => some (Json.num 7)) "https://civitai.com/api/v1/models/7".data true).networkCalls = 1 ∧
    (apiGet (apiGet { cache := fun _ => none, now := 0 } (fun _ => some (Json.obj []))
        "https://civitai.com/api/v1/models/7".data true).state
      (fun _ => some (Json.num 7)) "https://civitai.com/api/v1/models/7".data true).result
      = some (Json.num 7) :=
  ⟨rfl, rfl, rfl⟩

/-- C1, amended: if the first `_get(url, use_cache=True)` is a cache miss
whose network fetch succeeds with a TRUTHY body, then a second
`_get(url, use_cache=True)` within the 300-second TTL returns exactly the
first result and performs no network request (and no sleep).  The amendment
restricts the claim to truthy response bodies: for a falsy body (such as the
empty JSON object) the second call hits the network again, as the
counterexample and C10 show. -/
theorem c1_cache_hit (s : APIState) (t1 t2 : Nat → Option Json) (url : PyStr)
    (j : Json) (dt : Nat)
    (hmiss : ∀ d, getFromCache s (getCacheKey url) = some d → jsonTruthy d = false)
    (hj : jsonTruthy j = true)
    (h1 : (apiGet s t1 url true).result = some j)
    (hdt : dt < cacheTimeoutConst) :
    (apiGet (advanceClock (apiGet s t1 url true).state dt) t2 url true).result = some j ∧
    (apiGet (advanceClock (apiGet s t1 url true).state dt) t2 url true).networkCalls = 0 ∧
    (apiGet (advanceClock (apiGet s t1 url true).state dt) t2 url true).sleeps = [] := by
  have e := apiGet_of_miss s t1 url hmiss
  rw [e] at h1 ⊢
  rw [getRetryLoop_state_of_some t1 (getCacheKey url) s j retryAttemptsConst 0 h1]
  rw [apiGet_hit _ t2 url j (getFromCache_store_advance s (getCacheKey url) j dt hdt) hj]
  exact ⟨rfl, rfl, rfl⟩

theorem c1_cache_hit_witness :
    (∀ d, getFromCache { cache := fun _ => none, now := 5 }
        (getCacheKey "https://civitai.com/api/v1/models/2".data) = some d →
        jsonTruthy d = false) ∧
    jsonTruthy (Json.num 3) = true ∧
    (apiGet { cache := fun _ => none, now := 5 } (fun _ => some (Json.num 3))
      "https://civitai.com/api/v1/models/2".data true).result = some (Json.num 3) ∧
    10 < cacheTimeoutConst ∧
    (apiGet (advanceClock (apiGet { cache := fun _ => none, now := 5 }
        (fun _ => some (Json.num 3)) "https://civitai.com/api/v1/models/2".data true).state 10)
      (fun _ => none) "https://civitai.com/api/v1/models/2".data true).result
      = some (Json.num 3) := by
  have hmiss : ∀ d, getFromCache { cache := fun _ => none, now := 5 }
      (getCacheKey "https://civitai.com/api/v1/models/2".data) = some d →
      jsonTruthy d = false := by
    intro d hd
    simp [getFromCache, isCacheValid] at hd
  refine ⟨hmiss, rfl, rfl, by decide, ?_⟩
  exact (c1_cache_hit { cache := fun _ => none, now := 5 } (fun _ => some (Json.num 3))
    (fun _ => none) "https://civitai.com/api/v1/models/2".data (Json.num 3) 10
    hmiss rfl rfl (by decide)).1

/-- C10: when a successful fetch produces a falsy JSON body (for example the
empty object), the body IS stored in the cache, but a second
`_get(url, use_cache=True)` within the TTL performs at least one fresh
network request instead of returning the cached body, because `_get` uses a
cached value only when it is truthy. -/
theorem c10_falsy_cache_bypass (s : APIState) (t1 t2 : Nat → Option Json)
    (url : PyStr) (j : Json) (dt : Nat)
    (hmiss : ∀ d, getFromCache s (getCacheKey url) = some d → jsonTruthy d = false)
    (h0 : t1 0 = some j) (hfalsy : jsonTruthy j = false)
    (hdt : dt < cacheTimeoutConst) :
    (apiGet s t1 url true).result = some j ∧
    (apiGet s t1 url true).state.cache (getCacheKey url)
      = some { data := j, timestamp := s.now } ∧
    1 ≤ (apiGet (advanceClock (apiGet s t1 url true).state dt) t2 url true).networkCalls := by
  have e := apiGet_of_miss s t1 url hmiss
  rw [e]
  have h1 : (getRetryLoop t1 true (getCacheKey url) s 0 retryAttemptsConst).result = some j := by
    simp [getRetryLoop, retryAttemptsConst, h0]
  have hst := getRetryLoop_state_of_some t1 (getCacheKey url) s j retryAttemptsConst 0 h1
  refine ⟨h1, ?_, ?_⟩
  · rw [hst]; simp [storeInCache]
  · rw [hst]
    have hmiss2 : ∀ d, getFromCache (advanceClock (storeInCache s (getCacheKey url) j) dt)
        (getCacheKey url) = some d → jsonTruthy d = false := by
      intro d hd
      rw [getFromCache_store_advance s (getCacheKey url) j dt hdt] at hd
      cases hd
      exact hfalsy
    rw [apiGet_of_miss _ t2 url hmiss2]
    exact getRetryLoop_networkCalls_pos t2 true (getCacheKey url) _ 0 2

theorem c10_falsy_cache_bypass_witness :
    (∀ d, getFromCache { cache := fun _ => none, now := 0 }
        (getCacheKey "https://civitai.com/api/v1/models/9".data) = some d →
        jsonTruthy d = false) ∧
    (fun (_ : Nat) => some (Json.obj [])) 0 = some (Json.obj []) ∧
    jsonTruthy (Json.obj []) = false ∧
    0 < cacheTimeoutConst ∧
    1 ≤ (apiGet (advanceClock (apiGet { cache := fun _ => none, now := 0 }
          (fun _ => some (Json.obj [])) "https://civitai.com/api/v1/models/9".data true).state 0)
        (fun _ => some (Json.num 1)) "https://civitai.com/api/v1/models/9".data true).networkCalls := by
  have hmiss : ∀ d, getFromCache { cache := fun _ => none, now := 0 }
      (getCacheKey "https://civitai.com/api/v1/models/9".data) = some d →
      jsonTruthy d = false := by
    intro d hd
    simp [getFromCache, isCacheValid] at hd
  refine ⟨hmiss, rfl, rfl, by decide, ?_⟩
  exact (c10_falsy_cache_bypass { cache := fun _ => none, now := 0 }
    (fun _ => some (Json.obj [])) (fun _ => some (Json.num 1))
    "https://civitai.com/api/v1/models/9".data (Json.obj []) 0
    hmiss rfl rfl (by decide)).2.2

theorem clampProgress_mono (a b : ℚ) (h : a ≤ b) : clampProgress a ≤ clampProgress b :=
  min_le_min le_rfl (max_le_max le_rfl h)

theorem clampProgress_le_100 (a : ℚ) : clampProgress a ≤ 100 := min_le_left _ _

theorem chunkProgress_chain (total : Nat) (ht : 0 < total) :
    ∀ (cs : List Nat) (d : Nat), d + cs.sum ≤ total →
      List.Chain (· ≤ ·) ((d : ℚ) / (total : ℚ) * 100) (chunkProgress total cs d).1 ∧
      ∀ x ∈ (chunkProgress total cs d).1, x ≤ 100 := by
  intro cs
  induction cs with
  | nil =>
    intro d hd
    exact ⟨List.Chain.nil, by simp [chunkProgress]⟩
  | cons c cs ih =>
    intro d hd
    by_cases hc : c = 0
    · subst hc
      simp only [chunkProgress, if_pos rfl]
      exact ih d (by simpa using hd)
    · have hsum : (d + c) + cs.sum ≤ total := by
        simp only [List.sum_cons] at hd
        omega
      have hrest := ih (d + c) hsum
      have htq : (0 : ℚ) < (total : ℚ) := by exact_mod_cast ht
      have hstep : (d : ℚ) / (total : ℚ) * 100 ≤ ((d + c : ℕ) : ℚ) / (total : ℚ) * 100 := by
        have : (d : ℚ) ≤ ((d + c : ℕ) : ℚ) := by exact_mod_cast Nat.le_add_right d c
        gcongr
      have hcap : ((d + c : ℕ) : ℚ) / (total : ℚ) * 100 ≤ 100 := by
        have hle : (d + c : ℕ) ≤ total := by omega
        have h1 : ((d + c : ℕ) : ℚ) / (total : ℚ) ≤ 1 := by
          rw [div_le_one htq]
          exact_mod_cast hle
        linarith
      simp only [chunkProgress, if_neg hc, if_pos ht]
      refine ⟨List.Chain.cons hstep hrest.1, ?_⟩
      intro x hx
      rcases List.mem_cons.mp hx with rfl | hx2
      · exact hcap
      · exact hrest.2 x hx2

theorem mem_of_getLastQ {l : List ℚ} {x : ℚ} (h : x ∈ l.getLast?) : x ∈ l := by
  rcases List.mem_getLast?_eq_getLast h with ⟨hne, rfl⟩
  exact List.getLast_mem hne

/-- C4: during a chunked download with known total size (`content-length`
greater than zero, with the delivered bytes not exceeding it) that runs to
completion, the sequence of progress values reported through the progress
callback and the sequence of values stored on the descriptor are both
monotonically non-decreasing, and at successful completion the descriptor
progress is exactly 100.0. -/
theorem c4_progress_monotone (total : Nat) (chunks : List Nat)
    (htot : 0 < total) (hsum : chunks.sum ≤ total) (r : DLResult)
    (hr : r = downloadModelWithProgress
      { destExists := false,
        response := some { contentLength := total, chunks := chunks, midStreamError := false } }) :
    List.Chain' (· ≤ ·) r.callbackProgress ∧
    List.Chain' (· ≤ ·) r.descriptorProgress ∧
    r.finalProgress = 100 ∧ r.ret = true ∧ r.finalStatus = "completed".data := by
  subst hr
  have hchunks := chunkProgress_chain total htot chunks 0 (by simpa using hsum)
  have hraw : List.Chain' (· ≤ ·) ((chunkProgress total chunks 0).1) := by
    have h0 : List.Chain' (· ≤ ·) (((0 : ℚ) / (total : ℚ) * 100) :: (chunkProgress total chunks 0).1) :=
      hchunks.1
    exact h0.tail
  have hle := hchunks.2
  have hcb : List.Chain' (· ≤ ·) ((chunkProgress total chunks 0).1 ++ [(100 : ℚ)]) := by
    refine List.Chain'.append hraw (List.chain'_singleton 100) ?_
    intro x hx y hy
    simp only [List.head?_cons, Option.mem_def, Option.some.injEq] at hy
    subst hy
    exact hle x (mem_of_getLastQ hx)
  have hdesc : List.Chain' (· ≤ ·)
      (((chunkProgress total chunks 0).1.map clampProgress) ++ [(100 : ℚ)]) := by
    refine List.Chain'.append ?_ (List.chain'_singleton 100) ?_
    · exact (List.chain'_map clampProgress).mpr (hraw.imp fun a b hab => clampProgress_mono a b hab)
    · intro x hx y hy
      simp only [List.head?_cons, Option.mem_def, Option.some.injEq] at hy
      subst hy
      have hx2 := mem_of_getLastQ hx
      rcases List.mem_map.mp hx2 with ⟨a, _, rfl⟩
      exact clampProgress_le_100 a
  refine ⟨?_, ?_, rfl, rfl, rfl⟩
  · simpa [downloadModelWithProgress] using hcb
  · simpa [downloadModelWithProgress] using hdesc

theorem c4_progress_monotone_witness :
    0 < 1000 ∧ (List.replicate 10 100).sum ≤ 1000 ∧
    (downloadModelWithProgress
      { destExists := false,
        response := some { contentLength := 1000, chunks := List.replicate 10 100, midStreamError := false } }).finalProgress = 100 ∧
    List.Chain' (· ≤ ·)
      (downloadModelWithProgress
        { destExists := false,
          response := some { contentLength := 1000, chunks := List.replicate 10 100, midStreamError := false } }).callbackProgress := by
  have h := c4_progress_monotone 1000 (List.replicate 10 100) (by decide) (by decide) _ rfl
  exact ⟨by decide, by decide, h.2.2.1, h.1⟩

/-- C5: any exception during the streaming transfer (either the initial
request raising, or the chunk iteration raising mid-stream) leaves no
destination file behind, sets the descriptor status to `failed` and makes
the call return `False`; the call returns `True` exactly when the
destination already existed or the transfer ran to completion without a
mid-stream exception. -/
theorem c5_exception_cleanup :
    (∀ (total : Nat) (chunks : List Nat),
      (downloadModelWithProgress
        { destExists := false,
          response := some { contentLength := total, chunks := chunks, midStreamError := true } }).ret = false ∧
      (downloadModelWithProgress
        { destExists := false,
          response := some { contentLength := total, chunks := chunks, midStreamError := true } }).finalStatus = "failed".data ∧
      (downloadModelWithProgress
        { destExists := false,
          response := some { contentLength := total, chunks := chunks, midStreamError := true } }).fileExistsAfter = false) ∧
    ((downloadModelWithProgress { destExists := false, response := none }).ret = false ∧
     (downloadModelWithProgress { destExists := false, response := none }).finalStatus
        = "failed".data ∧
     (downloadModelWithProgress { destExists := false, response := none }).fileExistsAfter
        = false) ∧
    (∀ inp : DLInput, (downloadModelWithProgress inp).ret = true ↔
      (inp.destExists = true ∨ ∃ resp, inp.response = some resp ∧ resp.midStreamError = false)) := by
  refine ⟨?_, ⟨rfl, rfl, rfl⟩, ?_⟩
  · intro total chunks
    exact ⟨rfl, rfl, rfl⟩
  · intro inp
    rcases inp with ⟨de, resp⟩
    cases de
    · cases resp with
      | none => simp [downloadModelWithProgress]
      | some r =>
        rcases r with ⟨cl, ch, me⟩
        cases me
        · simp [downloadModelWithProgress]
        · simp [downloadModelWithProgress]
    · simp [downloadModelWithProgress]

theorem c5_exception_cleanup_witness :
    (downloadModelWithProgress
      { destExists := false,
        response := some { contentLength := 1000, chunks := [100, 100], midStreamError := true } }).ret = false ∧
    (downloadModelWithProgress
      { destExists := false,
        response := some { contentLength := 1000, chunks := [100, 100], midStreamError := true } }).fileExistsAfter = false ∧
    ((downloadModelWithProgress { destExists := true, response := none }).ret = true ↔
      (true = true ∨ ∃ resp, (none : Option StreamResp) = some resp ∧ resp.midStreamError = false)) := by
  refine ⟨(c5_exception_cleanup.1 1000 [100, 100]).1,
    (c5_exception_cleanup.1 1000 [100, 100]).2.2, ?_⟩
  exact c5_exception_cleanup.2.2 { destExists := true, response := none }

theorem dl_ret_fileExists (inp : DLInput)
    (h : (downloadModelWithProgress inp).ret = true) :
    (downloadModelWithProgress inp).fileExistsAfter = true := by
  rcases inp with ⟨de, resp⟩
  cases de
  · cases resp with
    | none => simp [downloadModelWithProgress] at h
    | some r =>
      rcases r with ⟨cl, ch, me⟩
      cases me
      · simp [downloadModelWithProgress]
      · simp [downloadModelWithProgress] at h
  · simp [downloadModelWithProgress]

/-- C6: if the destination file already exists, `download_model_with_progress`
returns `True` without opening the streaming request; consequently a second
call after a successful first call (against the file state the first call
left behind) returns `True` as well and transfers nothing, so two sequential
calls download at most once and succeed both times. -/
theorem c6_idempotent :
    (∀ resp : Option StreamResp,
      (downloadModelWithProgress { destExists := true, response := resp }).ret = true ∧
      (downloadModelWithProgress { destExists := true, response := resp }).networkAttempted
        = false) ∧
    (∀ (inp : DLInput) (resp2 : Option StreamResp),
      (downloadModelWithProgress inp).ret = true →
      (downloadModelWithProgress
        { destExists := (downloadModelWithProgress inp).fileExistsAfter,
          response := resp2 }).ret = true ∧
      (downloadModelWithProgress
        { destExists := (downloadModelWithProgress inp).fileExistsAfter,
          response := resp2 }).networkAttempted = false) := by
  constructor
  · intro resp
    exact ⟨rfl, rfl⟩
  · intro inp resp2 h
    rw [dl_ret_fileExists inp h]
    exact ⟨rfl, rfl⟩

theorem c6_idempotent_witness :
    (downloadModelWithProgress
      { destExists := false,
        response := some { contentLength := 10, chunks := [10], midStreamError := false } }).ret = true ∧
    (downloadModelWithProgress
      { destExists := (downloadModelWithProgress
          { destExists := false,
            response := some { contentLength := 10, chunks := [10], midStreamError := false } }).fileExistsAfter,
        response := some { contentLength := 10, chunks := [10], midStreamError := false } }).ret = true ∧
    (downloadModelWithProgress
      { destExists := (downloadModelWithProgress
          { destExists := false,
            response := some { contentLength := 10, chunks := [10], midStreamError := false } }).fileExistsAfter,
        response := some { contentLength := 10, chunks := [10], midStreamError := false } }).networkAttempted = false := by
  have h := c6_idempotent.2
    { destExists := false,
      response := some { contentLength := 10, chunks := [10], midStreamError := false } }
    (some { contentLength := 10, chunks := [10], midStreamError := false }) rfl
  exact ⟨rfl, h.1, h.2⟩

theorem batchLoop_results (total : Nat) :
    ∀ (l : List (PyStr × Bool)) (c : Nat), (batchLoop total l c).results = l := by
  intro l
  induction l with
  | nil => intro c; rfl
  | cons p rest ih =>
    intro c
    rcases p with ⟨name, ok⟩
    simp [batchLoop, ih]

theorem batchLoop_callback_length (total : Nat) :
    ∀ (l : List (PyStr × Bool)) (c : Nat),
      (batchLoop total l c).callbackCalls.length = l.length := by
  intro l
  induction l with
  | nil => intro c; rfl
  | cons p rest ih =>
    intro c
    rcases p with ⟨name, ok⟩
    simp [batchLoop, ih]

/-- C7: for any batch of submitted downloads with distinct model names,
`download_multiple_models` (run under any future-completion order, which is
any permutation of the submitted list) records every item in the result map
(a failing item never cancels its siblings), returns exactly one boolean per
item with as many `True`/`False` entries as there are succeeding/failing
items, and fires the overall progress callback exactly once per item. -/
theorem c7_batch_results (items order : List (PyStr × Bool))
    (hperm : order.Perm items) (hnodup : (items.map Prod.fst).Nodup) :
    (downloadMultipleModels order).results.length = items.length ∧
    ((downloadMultipleModels order).results.map Prod.fst).Nodup ∧
    (downloadMultipleModels order).callbackCalls.length = items.length ∧
    (downloadMultipleModels order).results.countP (fun p => p.2)
      = items.countP (fun p => p.2) ∧
    (downloadMultipleModels order).results.countP (fun p => !p.2)
      = items.countP (fun p => !p.2) ∧
    (∀ p ∈ items, p ∈ (downloadMultipleModels order).results) := by
  have hres : (downloadMultipleModels order).results = order :=
    batchLoop_results order.length order 0
  rw [hres]
  refine ⟨hperm.length_eq, ?_, ?_, hperm.countP_eq _, hperm.countP_eq _, ?_⟩
  · exact ((hperm.map Prod.fst).nodup_iff).mpr hnodup
  · rw [downloadMultipleModels, batchLoop_callback_length order.length order 0]
    exact hperm.length_eq
  · intro p hp
    exact hperm.mem_iff.mpr hp

theorem c7_batch_results_witness :
    ([("m5".data, true), ("m4".data, false), ("m1".data, true), ("m3".data, true),
        ("m2".data, false)].Perm
      [("m1".data, true), ("m2".data, false), ("m3".data, true), ("m4".data, false),
        ("m5".data, true)]) ∧
    (([("m1".data, true), ("m2".data, false), ("m3".data, true), ("m4".data, false),
        ("m5".data, true)].map Prod.fst).Nodup) ∧
    (downloadMultipleModels [("m5".data, true), ("m4".data, false), ("m1".data, true),
        ("m3".data, true), ("m2".data, false)]).results.countP (fun p => p.2) = 3 ∧
    (downloadMultipleModels [("m5".data, true), ("m4".data, false), ("m1".data, true),
        ("m3".data, true), ("m2".data, false)]).results.countP (fun p => !p.2) = 2 ∧
    (downloadMultipleModels [("m5".data, true), ("m4".data, false), ("m1".data, true),
        ("m3".data, true), ("m2".data, false)]).callbackCalls.length = 5 := by
  have hperm : ([("m5".data, true), ("m4".data, false), ("m1".data, true), ("m3".data, true),
      ("m2".data, false)] : List (PyStr × Bool)).Perm
      [("m1".data, true), ("m2".data, false), ("m3".data, true), ("m4".data, false),
        ("m5".data, true)] := by decide
  have hnodup : (([("m1".data, true), ("m2".data, false), ("m3".data, true), ("m4".data, false),
      ("m5".data, true)] : List (PyStr × Bool)).map Prod.fst).Nodup := by decide
  have h := c7_batch_results _ _ hperm hnodup
  refine ⟨hperm, hnodup, ?_, ?_, ?_⟩
  · rw [h.2.2.2.1]; decide
  · rw [h.2.2.2.2.1]; decide
  · rw [h.2.2.1]; decide

theorem optimizeTunnelForCloud_name (st : HubState) (cfg : TunnelConfig) :
    (optimizeTunnelForCloud st cfg).name = cfg.name := by
  unfold optimizeTunnelForCloud
  split
  · rfl
  · split
    · rfl
    · rfl

/-- C8: registering a tunnel whose command executable is not on the PATH
immediately records a `failed` status with an explanatory message, leaves
the execution list unchanged (so starting the supervisor spawns no thread or
process for it), and does not affect other tunnels: every previously queued
tunnel stays queued, and a subsequently registered tunnel with an available
executable is still appended to the execution list (and hence started). -/
theorem c8_missing_executable (st : HubState) (available : PyStr → Bool)
    (command pattern name : PyStr) (note : Option PyStr) (priority : Nat)
    (healthCheckUrl : Option PyStr) (retryLimit timeoutArg : Option Nat)
    (securityLevel : PyStr) (widgetIntegration cloudOptimized : Bool)
    (cmdName : PyStr) (restWords : List PyStr)
    (hsplit : pySplitWs command = cmdName :: restWords)
    (hna : available cmdName = false) :
    (addTunnel st available command pattern name note priority healthCheckUrl retryLimit
        timeoutArg securityLevel widgetIntegration cloudOptimized).tunnelStatuses name
      = some { status := "failed".data,
               errorMessage := some ("Command ".data ++ cmdName ++ " not available".data) } ∧
    (addTunnel st available command pattern name note priority healthCheckUrl retryLimit
        timeoutArg securityLevel widgetIntegration cloudOptimized).tunnelList
      = st.tunnelList ∧
    spawnedTunnelThreads (addTunnel st available command pattern name note priority
        healthCheckUrl retryLimit timeoutArg securityLevel widgetIntegration cloudOptimized)
      = spawnedTunnelThreads st ∧
    (∀ (command2 pattern2 name2 : PyStr) (note2 : Option PyStr) (priority2 : Nat)
        (hcu2 : Option PyStr) (rl2 ta2 : Option Nat) (sl2 : PyStr) (wi2 co2 : Bool)
        (cmd2 : PyStr) (rest2 : List PyStr),
      pySplitWs command2 = cmd2 :: rest2 → available cmd2 = true →
      spawnedTunnelThreads (addTunnel
          (addTunnel st available command pattern name note priority healthCheckUrl retryLimit
            timeoutArg securityLevel widgetIntegration cloudOptimized)
          available command2 pattern2 name2 note2 priority2 hcu2 rl2 ta2 sl2 wi2 co2)
        = spawnedTunnelThreads st ++ [name2]) := by
  have hst2 : addTunnel st available command pattern name note priority healthCheckUrl
      retryLimit timeoutArg securityLevel widgetIntegration cloudOptimized
      = { st with tunnelStatuses := fun k =>
            if k = name then
              some { status := "failed".data,
                     errorMessage := some ("Command ".data ++ cmdName ++ " not available".data) }
            else st.tunnelStatuses k } := by
    rw [addTunnel, hsplit]
    simp [hna]
  refine ⟨?_, ?_, ?_, ?_⟩
  · rw [hst2]; simp
  · rw [hst2]
  · rw [hst2]; rfl
  · intro command2 pattern2 name2 note2 priority2 hcu2 rl2 ta2 sl2 wi2 co2 cmd2 rest2 h2 ha2
    rw [hst2]
    rw [addTunnel, h2]
    simp only [ha2, Bool.not_true, Bool.false_eq_true, if_false]
    have hn : ∀ (st3 : HubState) (cfg : TunnelConfig),
        (if co2 then optimizeTunnelForCloud st3 cfg else cfg).name = cfg.name := by
      intro st3 cfg
      by_cases hco : co2
      · simp [hco, optimizeTunnelForCloud_name]
      · simp [hco]
    simp [spawnedTunnelThreads, hn]

theorem c8_missing_executable_witness :
    pySplitWs "zrok http 80".data = "zrok".data :: ["http".data, "80".data] ∧
    (fun (w : PyStr) => w = "cloudflared".data) "zrok".data = false ∧
    (addTunnel
        { platform := "local".data, maxRetries := 3, timeoutHub := 15,
          tunnelStatuses := fun _ => none, tunnelList := [] }
        (fun w => w = "cloudflared".data) "zrok http 80".data "pattern-z".data "zrok".data none
        1 none none none "medium".data true true).tunnelList = [] ∧
    (addTunnel
        { platform := "local".data, maxRetries := 3, timeoutHub := 15,
          tunnelStatuses := fun _ => none, tunnelList := [] }
        (fun w => w = "cloudflared".data) "zrok http 80".data "pattern-z".data "zrok".data none
        1 none none none "medium".data true true).tunnelStatuses "zrok".data
      = some { status := "failed".data,
               errorMessage := some ("Command ".data ++ "zrok".data ++ " not available".data) } ∧
    spawnedTunnelThreads (addTunnel
        (addTunnel
          { platform := "local".data, maxRetries := 3, timeoutHub := 15,
            tunnelStatuses := fun _ => none, tunnelList := [] }
          (fun w => w = "cloudflared".data) "zrok http 80".data "pattern-z".data "zrok".data none
          1 none none none "medium".data true true)
        (fun w => w = "cloudflared".data) "cloudflared tunnel".data "pattern-c".data
        "cloudflared".data none 1 none none none "medium".data true true)
      = ["cloudflared".data] := by
  have h := c8_missing_executable
    { platform := "local".data, maxRetries := 3, timeoutHub := 15,
      tunnelStatuses := fun _ => none, tunnelList := [] }
    (fun w => w = "cloudflared".data) "zrok http 80".data "pattern-z".data "zrok".data none
    1 none none none "medium".data true true "zrok".data ["http".data, "80".data]
    (by decide) (by decide)
  refine ⟨by decide, by decide, h.2.1, h.1, ?_⟩
  have h4 := h.2.2.2 "cloudflared tunnel".data "pattern-c".data "cloudflared".data none
    1 none none none "medium".data true true "cloudflared".data ["tunnel".data]
    (by decide) (by decide)
  simpa [spawnedTunnelThreads] using h4

theorem waitAux_false_none :
    ∀ (fuel k : Nat) (e : ℚ),
      waitAux (fun _ => false) 1 none k e fuel = (none, (fuel : ℚ)) := by
  intro fuel
  induction fuel with
  | zero => intro k e; simp [waitAux]
  | succ f ih =>
    intro k e
    simp only [waitAux, Bool.false_eq_true, if_false, ih (k + 1) (e + 1)]
    rw [Prod.mk.injEq]
    refine ⟨rfl, ?_⟩
    push_cast
    ring

theorem waitAux_sleep_le (cond : Nat → Bool) (interval : ℚ) (hi : 0 ≤ interval) (t : ℚ) :
    ∀ (fuel k : Nat) (e : ℚ),
      (waitAux cond interval (some t) k e fuel).2 ≤ max (t - e) 0 := by
  intro fuel
  induction fuel with
  | zero => intro k e; simp [waitAux]
  | succ f ih =>
    intro k e
    cases hc : cond k with
    | true => simp [waitAux, hc]
    | false =>
      by_cases he : e ≥ t
      · simp [waitAux, hc, he]
      · push_neg at he
        have hnn : (0 : ℚ) ≤ t - e := by linarith
        have hk1 : (1 : ℚ) ≤ (k : ℚ) + 2 := by
          have : (0 : ℚ) ≤ (k : ℚ) := Nat.cast_nonneg k
          linarith
        have hd : (t - e) / ((k : ℚ) + 2) ≤ t - e := div_le_self hnn hk1
        have hnl : min interval ((t - e) / ((k : ℚ) + 2)) ≤ t - e :=
          le_trans (min_le_right _ _) hd
        have hih := ih (k + 1) (e + min interval ((t - e) / ((k : ℚ) + 2)))
        have hmain : min interval ((t - e) / ((k : ℚ) + 2))
            + (waitAux cond interval (some t) (k + 1)
                (e + min interval ((t - e) / ((k : ℚ) + 2))) f).2 ≤ t - e := by
          rcases le_or_lt 0 (t - (e + min interval ((t - e) / ((k : ℚ) + 2)))) with hcase | hcase
          · have : max (t - (e + min interval ((t - e) / ((k : ℚ) + 2)))) 0
                = t - (e + min interval ((t - e) / ((k : ℚ) + 2))) := max_eq_left hcase
            rw [this] at hih
            linarith
          · have : max (t - (e + min interval ((t - e) / ((k : ℚ) + 2)))) 0 = 0 :=
              max_eq_right (le_of_lt hcase)
            rw [this] at hih
            linarith
        have hgoal : (waitAux cond interval (some t) k e (f + 1)).2
            = min interval ((t - e) / ((k : ℚ) + 2))
              + (waitAux cond interval (some t) (k + 1)
                  (e + min interval ((t - e) / ((k : ℚ) + 2))) f).2 := by
          simp [waitAux, hc, not_le.mpr he]
        rw [hgoal]
        exact le_trans hmain (le_max_left _ _)

/-- C9, counterexample: the local-port wait of tunnel startup is invoked
with `timeout=None`; with the port never occupied and no stop signal, after
20 polls it has slept 20 seconds (already beyond the 15-second default
printer timeout) and still has not returned, so this blocking wait is not
bounded by any explicit timeout value. -/
theorem c9_counterexample :
    (waitForPortIfNeeded true (fun _ => false) 20).1 = none ∧
    (waitForPortIfNeeded true (fun _ => false) 20).2 = 20 ∧ (15 : ℚ) < 20 := by
  have h := waitAux_false_none 20 0 0
  refine ⟨?_, ?_, by norm_num⟩ <;>
    simp [waitForPortIfNeeded, waitForCondition, h] <;> norm_num

/-- C9, amended: the printer thread wait for all tunnels to report a URL is
bounded by the explicit timeout `max(1, self.timeout)` (its total sleep
never exceeds that bound), but the wait for the local port to be occupied is
started with `timeout=None` and is unbounded: if the port never becomes
occupied and the stop event is never set, after any number `n` of polls it
has slept `n` seconds and still not returned. -/
theorem c9_wait_timeouts :
    (∀ (timeoutHub : Nat) (cond : Nat → Bool) (fuel : Nat),
      (printerUrlWait timeoutHub cond fuel).2 ≤ max 1 (timeoutHub : ℚ)) ∧
    (∀ fuel : Nat, (waitForPortIfNeeded true (fun _ => false) fuel).1 = none ∧
      (waitForPortIfNeeded true (fun _ => false) fuel).2 = (fuel : ℚ)) := by
  constructor
  · intro T cond fuel
    have h := waitAux_sleep_le cond 1 (by norm_num) (max 1 (T : ℚ)) fuel 0 0
    have hmax : max ((max 1 (T : ℚ)) - 0) 0 = max 1 (T : ℚ) := by
      rw [sub_zero]
      exact max_eq_left (le_trans zero_le_one (le_max_left _ _))
    have heq : (printerUrlWait T cond fuel).2
        = (waitAux cond 1 (some (max 1 (T : ℚ))) 0 0 fuel).2 := by
      simp [printerUrlWait, waitForCondition]
    rw [heq]
    rw [hmax] at h
    exact h
  · intro fuel
    have h := waitAux_false_none fuel 0 0
    refine ⟨?_, ?_⟩ <;> simp [waitForPortIfNeeded, waitForCondition, h]

theorem containsSub_cons (sep : List Char) (c : Char) (t : List Char) :
    containsSub sep (c :: t) = (sep.isPrefixOf (c :: t) || containsSub sep t) := by
  rw [containsSub]

theorem isPrefixOf_append_self (l r : List Char) : l.isPrefixOf (l ++ r) = true :=
  ( List.isPrefixOf_iff_prefix).mpr (l.prefix_append r)

theorem containsSub_of_isPrefixOf (sep p : List Char) (h : sep.isPrefixOf p = true) :
    containsSub sep p = true := by
  cases p with
  | nil => rw [containsSub, h]; rfl
  | cons c t => rw [containsSub_cons, h]; rfl

theorem containsSub_append_sep (sep x y : List Char) :
    containsSub sep (x ++ (sep ++ y)) = true := by
  induction x with
  | nil => exact containsSub_of_isPrefixOf sep (sep ++ y) (isPrefixOf_append_self sep y)
  | cons c x ih => rw [List.cons_append, containsSub_cons, ih, Bool.or_true]

theorem pyStartsWith_append (p q x : List Char) (h : pyStartsWith p x = true) :
    pyStartsWith (p ++ q) x = true := by
  unfold pyStartsWith at h ⊢
  exact ( List.isPrefixOf_iff_prefix).mpr
    ((( List.isPrefixOf_iff_prefix).mp h).trans (p.prefix_append q))

theorem isPrefixOf_append_sep_false (sep p r : List Char)
    (hover : ∀ i, i < sep.length → 0 < i → (sep.drop i).isPrefixOf sep = false)
    (hnc : containsSub sep p = false) (hne : p ≠ []) :
    sep.isPrefixOf (p ++ (sep ++ r)) = false := by
  cases hb : sep.isPrefixOf (p ++ (sep ++ r)) with
  | false => rfl
  | true =>
    exfalso
    have hpre : sep <+: p ++ (sep ++ r) := ( List.isPrefixOf_iff_prefix).mp hb
    have htake := List.prefix_iff_eq_take.mp hpre
    rcases le_or_lt sep.length p.length with hlen | hlen
    · have h1 : (p ++ (sep ++ r)).take sep.length = p.take sep.length := by
        rw [List.take_append_eq_append_take]
        have h0 : sep.length - p.length = 0 := by omega
        simp [h0]
      have h2 : sep <+: p := by
        rw [List.prefix_iff_eq_take, ← h1]
        exact htake
      have h3 : containsSub sep p = true :=
        containsSub_of_isPrefixOf sep p (( List.isPrefixOf_iff_prefix).mpr h2)
      rw [h3] at hnc
      exact Bool.noConfusion hnc
    · have hpos : 0 < p.length := List.length_pos.mpr hne
      have h1 : (p ++ (sep ++ r)).take sep.length
          = p ++ (sep ++ r).take (sep.length - p.length) := by
        rw [List.take_append_eq_append_take, List.take_of_length_le (le_of_lt hlen)]
      have h2 : (sep ++ r).take (sep.length - p.length)
          = sep.take (sep.length - p.length) := by
        rw [List.take_append_eq_append_take]
        have h0 : sep.length - p.length - sep.length = 0 := by omega
        simp [h0]
      have h3 : sep = p ++ sep.take (sep.length - p.length) := by
        calc sep = (p ++ (sep ++ r)).take sep.length := htake
          _ = p ++ (sep ++ r).take (sep.length - p.length) := h1
          _ = p ++ sep.take (sep.length - p.length) := by rw [h2]
      have h4 : sep.drop p.length = sep.take (sep.length - p.length) := by
        conv_lhs => rw [h3]
        exact List.drop_left p _
      have h5 : (sep.drop p.length).isPrefixOf sep = true := by
        rw [h4]
        exact ( List.isPrefixOf_iff_prefix).mpr ( List.take_prefix _ _)
      have h6 := hover p.length hlen hpos
      rw [h5] at h6
      exact Bool.noConfusion h6

theorem splitOnCore_skip (sep : List Char) :
    ∀ (x r acc : List Char), splitOnCore sep (x ++ r) acc x.length = splitOnCore sep r acc 0 := by
  intro x
  induction x with
  | nil => intro r acc; rfl
  | cons c x ih => intro r acc; exact ih r acc

theorem splitOnCore_no_match (sep : List Char) :
    ∀ (l acc : List Char), containsSub sep l = false →
      splitOnCore sep l acc 0 = [acc.reverse ++ l] := by
  intro l
  induction l with
  | nil => intro acc _; simp [splitOnCore]
  | cons c t ih =>
    intro acc h
    rw [containsSub_cons] at h
    rcases Bool.or_eq_false_iff.mp h with ⟨h1, h2⟩
    rw [splitOnCore, if_neg (by simp [h1])]
    rw [ih (c :: acc) h2]
    simp

theorem splitOnCore_boundary (sep : List Char) (hsep : sep ≠ [])
    (hover : ∀ i, i < sep.length → 0 < i → (sep.drop i).isPrefixOf sep = false) :
    ∀ (p acc r : List Char), containsSub sep p = false →
      splitOnCore sep (p ++ (sep ++ r)) acc 0
        = (acc.reverse ++ p) :: splitOnCore sep r [] 0 := by
  intro p
  induction p with
  | nil =>
    intro acc r _
    rcases hs : sep with _ | ⟨s0, stail⟩
    · exact absurd hs hsep
    · subst hs
      have hpre : (s0 :: stail).isPrefixOf (s0 :: (stail ++ r)) = true :=
        isPrefixOf_append_self (s0 :: stail) r
      show splitOnCore (s0 :: stail) (s0 :: (stail ++ r)) acc 0 = _
      rw [splitOnCore, if_pos (by simp [hpre])]
      have hlen : (s0 :: stail).length - 1 = stail.length := by simp
      rw [hlen, splitOnCore_skip (s0 :: stail) stail r []]
      simp
  | cons c p ih =>
    intro acc r hnc
    have hb : sep.isPrefixOf ((c :: p) ++ (sep ++ r)) = false :=
      isPrefixOf_append_sep_false sep (c :: p) r hover hnc (by simp)
    rw [containsSub_cons] at hnc
    rcases Bool.or_eq_false_iff.mp hnc with ⟨_, h2⟩
    show splitOnCore sep (c :: (p ++ (sep ++ r))) acc 0 = _
    rw [splitOnCore, if_neg (by simp [show sep.isPrefixOf (c :: (p ++ (sep ++ r))) = false from hb])]
    rw [ih (c :: acc) r h2]
    simp

/-- C3: version-id resolution by `_extract_version_id`: (a) for every URL
with an http/https scheme whose first `modelVersionId=` occurrence is
followed by the value `v` terminated by the end of the URL or by an
ampersand, the result is the string `v` (so `modelVersionId=123` resolves to
`"123"`, with no fetch); (b) a bare model-page URL
`https://civitai.com/models/456` whose single metadata fetch reports the
first listed version id `"789"` resolves to `"789"`; (c) any input without
an http/https scheme resolves to nothing. -/
theorem c3_version_id_resolution :
    (∀ (fetch : PyStr → Option Json) (p v suffix : PyStr),
      (pyStartsWith p "http://".data || pyStartsWith p "https://".data) = true →
      containsSub "modelVersionId=".data p = false →
      containsSub "modelVersionId=".data (v ++ suffix) = false →
      containsSub "&".data v = false →
      (suffix = [] ∨ ∃ s2, suffix = '&' :: s2) →
      extractVersionId fetch (p ++ ("modelVersionId=".data ++ (v ++ suffix)))
        = some (Json.str v)) ∧
    (∀ fetch : PyStr → Option Json,
      fetch "https://civitai.com/api/v1/models/456".data
          = some (Json.obj [("modelVersions".data,
              Json.arr [Json.obj [("id".data, Json.str "789".data)]])]) →
      extractVersionId fetch "https://civitai.com/models/456".data
        = some (Json.str "789".data)) ∧
    (∀ (fetch : PyStr → Option Json) (url : PyStr),
      (pyStartsWith url "http://".data || pyStartsWith url "https://".data) = false →
      extractVersionId fetch url = none) := by
  refine ⟨?_, ?_, ?_⟩
  · intro fetch p v suffix hstart hpc hvs hv hsuf
    have hover : ∀ i, i < ("modelVersionId=".data).length → 0 < i →
        (("modelVersionId=".data).drop i).isPrefixOf "modelVersionId=".data = false := by decide
    have hstart2 : (pyStartsWith (p ++ ("modelVersionId=".data ++ (v ++ suffix))) "http://".data
        || pyStartsWith (p ++ ("modelVersionId=".data ++ (v ++ suffix))) "https://".data)
        = true := by
      rcases (Bool.or_eq_true _ _).mp hstart with h | h
      · rw [pyStartsWith_append p _ _ h]
        rfl
      · rw [pyStartsWith_append p _ _ h]
        simp
    have hcont : containsSub "modelVersionId=".data
        (p ++ ("modelVersionId=".data ++ (v ++ suffix))) = true :=
      containsSub_append_sep "modelVersionId=".data p (v ++ suffix)
    have hsplit1 : pySplit (p ++ ("modelVersionId=".data ++ (v ++ suffix)))
        "modelVersionId=".data = [p, v ++ suffix] := by
      rw [pySplit, splitOnCore_boundary "modelVersionId=".data (by decide) hover p []
          (v ++ suffix) hpc,
        splitOnCore_no_match "modelVersionId=".data (v ++ suffix) [] hvs]
      simp
    have hamp : pyGetItem (pySplit (v ++ suffix) "&".data) 0 = v := by
      rcases hsuf with rfl | ⟨s2, rfl⟩
      · rw [List.append_nil, pySplit, splitOnCore_no_match "&".data v [] hv]
        simp [pyGetItem]
      · have he : v ++ ('&' :: s2) = v ++ ("&".data ++ s2) := rfl
        rw [he, pySplit, splitOnCore_boundary "&".data (by decide) (by decide) v [] s2 hv]
        simp [pyGetItem]
    rw [extractVersionId]
    rw [hstart2, hcont]
    simp only [Bool.not_true, Bool.false_eq_true, if_false, if_true]
    rw [hsplit1]
    have hg1 : pyGetItem [p, v ++ suffix] 1 = v ++ suffix := rfl
    rw [hg1, hamp]
  · intro fetch hf
    have hred : extractVersionId fetch "https://civitai.com/models/456".data
        = (match fetch "https://civitai.com/api/v1/models/456".data with
           | some md => if jsonTruthy md then firstVersionId md else none
           | none => none) := rfl
    rw [hred, hf]
    rfl
  · intro fetch url h
    rw [extractVersionId, h]
    rfl

theorem c3_version_id_resolution_witness :
    ("https://civitai.com/models/456?".data
        ++ ("modelVersionId=".data ++ ("123".data ++ ([] : List Char))))
      = "https://civitai.com/models/456?modelVersionId=123".data ∧
    extractVersionId (fun _ => none)
        "https://civitai.com/models/456?modelVersionId=123".data
      = some (Json.str "123".data) ∧
    extractVersionId
        (fun u => if u = "https://civitai.com/api/v1/models/456".data
          then some (Json.obj [("modelVersions".data,
              Json.arr [Json.obj [("id".data, Json.str "789".data)]])])
          else none)
        "https://civitai.com/models/456".data = some (Json.str "789".data) ∧
    extractVersionId (fun _ => none) "civitai.com/models/456?modelVersionId=123".data
      = none := by
  have hjoin : ("https://civitai.com/models/456?".data
      ++ ("modelVersionId=".data ++ ("123".data ++ ([] : List Char))))
      = "https://civitai.com/models/456?modelVersionId=123".data := by decide
  refine ⟨hjoin, ?_, ?_, ?_⟩
  · rw [← hjoin]
    exact c3_version_id_resolution.1 (fun _ => none) "https://civitai.com/models/456?".data
      "123".data [] (by decide) (by decide) (by decide) (by decide) (Or.inl rfl)
  · exact c3_version_id_resolution.2.1 _ (by simp)
  · exact c3_version_id_resolution.2.2 (fun _ => none) _ (by decide)
